import Mathlib

/-!
Shallow embedding of `src/aws/lambda/deletion/handler.py` (account-deletion
Lambda).  The object store (S3) is modelled as an association list of
`(key, content)` pairs together with a trace of the store operations issued;
the store's fallible calls (`delete_objects` responses, `describe_job`,
JSON/ISO-timestamp parsing of scheduled entries, ETag computation, job-id
assignment) are oracles carried in a `Config`/`Clock` record, so that each
theorem quantifies over every possible behaviour of the external store.
Python string primitives used by the handler (`startswith`, `in`, `strip`,
`split('/')[-1]`, `replace(pat, '')`) are embedded as executable char-list
functions below.
-/

set_option maxRecDepth 40000

namespace Photolala

/-- `pre.data.isPrefixOf s.data`: models Python `s.startswith(pre)` and the
S3 `Prefix=` listing filter. -/
def hasPrefix (pre s : String) : Bool :=
  pre.data.isPrefixOf s.data

/-- Models Python `sub in s` (substring containment). -/
def strContains (s sub : String) : Bool :=
  decide (sub.data <:+: s.data)

/-- Fuel-indexed worker for `stripAll`; the fuel is always at least the
length of the remaining text, so the `0, s` branch is unreachable. -/
def stripAllGo (pat : List Char) : Nat → List Char → List Char
  | _, [] => []
  | 0, s => s
  | fuel + 1, c :: cs =>
      if pat ≠ [] ∧ pat.isPrefixOf (c :: cs) then
        stripAllGo pat fuel ((c :: cs).drop pat.length)
      else c :: stripAllGo pat fuel cs

/-- Remove every occurrence of `pat` from `s` (left to right), as Python
`s.replace(pat, '')` does for a non-empty pattern. -/
def stripAll (pat s : List Char) : List Char :=
  stripAllGo pat s.length s

/-- Python `s.replace(pat, '')`. -/
def replaceStr (s pat : String) : String :=
  ⟨stripAll pat.data s.data⟩

/-- Python `s.strip()`: drop whitespace from both ends. -/
def pyStrip (s : String) : String :=
  ⟨((s.data.dropWhile Char.isWhitespace).reverse.dropWhile Char.isWhitespace).reverse⟩

/-- Python `s.split('/')[-1]`: the suffix after the last `'/'`
(the whole string when no `'/'` occurs). -/
def lastComponent (s : String) : String :=
  ⟨(s.data.reverse.takeWhile (fun c => c ≠ '/')).reverse⟩

/-- JSON-ish scalar values appearing in the handler's result dictionaries. -/
inductive Val where
  | vStr (s : String)
  | vNat (n : Nat)
  deriving DecidableEq, Repr

/-- A Python result dictionary in insertion order (all values scalar). -/
abbrev Dict := List (String × Val)

/-- `d.get(k)`: first value stored under key `k`. -/
def dget (d : Dict) (k : String) : Option Val :=
  List.lookup k d

/-- One store/provider call issued by the handler, for the operation trace. -/
inductive Op where
  | listOp (pre : String)
  | getOp (key : String)
  | headOp (key : String)
  | putOp (key : String) (content : String)
  | deleteObjectOp (key : String)
  | deleteObjectsOp (keys : List String)
  | createJobOp (manifestKey : String) (etag : String) (userId : String)
  deriving DecidableEq, Repr

/-- The object store: `(key, content)` pairs in listing order, plus the trace
of operations issued so far. -/
structure S3State where
  objects : List (String × String)
  trace : List Op
  deriving DecidableEq, Repr

/-- Response of one `s3.delete_objects` call: either a normal response with
its `Deleted` and `Errors` key lists, or a transport exception. -/
inductive BatchResp where
  | ok (deleted : List String) (errors : List String)
  | exn (msg : String)
  deriving DecidableEq, Repr

/-- Response of one `s3control.describe_job` call. -/
inductive DescribeResult where
  | ok (status : String) (creationTime : Option String) (priority : Option Nat)
      (progress : Option (Nat × Nat × Nat))
  | noSuchJob
  | failure (msg : String)
  deriving DecidableEq, Repr

/-- Environment-resolved configuration plus the oracles for the external
store's fallible / provider-chosen behaviour. -/
structure Config where
  environment : String
  bucket : String
  threshold : Nat
  etag : String → String
  deleteResp : List String → BatchResp
  describeJob : String → DescribeResult
  parseDeleteOn : String → Except String Int
  newJobId : String

/-- The instant of an invocation, pre-rendered in the formats the source
uses: a comparable epoch value, `strftime('%Y-%m-%d')`,
`strftime('%Y%m%d-%H%M%S')` and `isoformat()`. -/
structure Clock where
  time : Int
  date : String
  stamp : String
  iso : String

/-- `s3.list_objects_v2(Prefix=pre)` (all pages): keys of the stored objects
whose key starts with `pre`, in store order. -/
def s3_list (st : S3State) (pre : String) : List String × S3State :=
  ((st.objects.filter (fun p => hasPrefix pre p.1)).map (fun p => p.1),
   { st with trace := st.trace ++ [Op.listOp pre] })

/-- `s3.get_object`: content of the first object stored under `key`
(`none` models the `NoSuchKey` exception). -/
def s3_get (st : S3State) (key : String) : Option String × S3State :=
  ((st.objects.find? (fun p => p.1 == key)).map (fun p => p.2),
   { st with trace := st.trace ++ [Op.getOp key] })

/-- `s3.head_object(...)['ETag']`: the configured content fingerprint of the
object stored under `key`. -/
def s3_head (cfg : Config) (st : S3State) (key : String) : Option String × S3State :=
  ((st.objects.find? (fun p => p.1 == key)).map (fun p => cfg.etag p.2),
   { st with trace := st.trace ++ [Op.headOp key] })

/-- `s3.put_object`: store `content` under `key`, replacing any previous
object with that key. -/
def s3_put (st : S3State) (key content : String) : S3State :=
  { objects := st.objects.filter (fun p => p.1 != key) ++ [(key, content)],
    trace := st.trace ++ [Op.putOp key content] }

/-- `s3.delete_object`: remove the object stored under `key` (removing an
absent key succeeds and is a no-op). -/
def s3_delete (st : S3State) (key : String) : S3State :=
  { objects := st.objects.filter (fun p => p.1 != key),
    trace := st.trace ++ [Op.deleteObjectOp key] }

/-- `s3.delete_objects` on one batch: the configured response determines the
`Deleted` list (whose length the source counts) and which keys disappear;
a transport exception (`BatchResp.exn`) deletes nothing and is counted as 0,
matching the `except` branch of `perform_direct_deletion`. -/
def s3_delete_objects (cfg : Config) (st : S3State) (keys : List String) :
    Nat × S3State :=
  match cfg.deleteResp keys with
  | .ok deleted _errors =>
      (deleted.length,
       { objects := st.objects.filter (fun p => !(deleted.contains p.1)),
         trace := st.trace ++ [Op.deleteObjectsOp keys] })
  | .exn _msg =>
      (0, { st with trace := st.trace ++ [Op.deleteObjectsOp keys] })

/-- The four per-user object namespaces scanned by `count_and_list_objects`
(`photos/`, `thumbnails/`, `catalogs/`, `users/`). -/
def userPrefixes (uid : String) : List String :=
  ["photos/" ++ uid ++ "/", "thumbnails/" ++ uid ++ "/",
   "catalogs/" ++ uid ++ "/", "users/" ++ uid ++ "/"]

/-- One step of the prefix scan in `count_and_list_objects`: list the prefix,
add the key count to the running total, and record the prefix's key list when
non-empty. -/
def scan_prefix (acc : (Nat × List (String × List String)) × S3State)
    (pre : String) : (Nat × List (String × List String)) × S3State :=
  let r := s3_list acc.2 pre
  ((acc.1.1 + r.1.length,
    if r.1 = [] then acc.1.2 else acc.1.2 ++ [(pre, r.1)]), r.2)

/-- `count_and_list_objects(user_id)`: total object count and the
objects-by-prefix inventory over the four user namespaces. -/
def count_and_list_objects (st : S3State) (uid : String) :
    (Nat × List (String × List String)) × S3State :=
  (userPrefixes uid).foldl scan_prefix ((0, []), st)

/-- The batches produced by `for i in range(0, len(keys), 1000)` with the
slice `keys[i:i + 1000]`: one slice per loop index. -/
def chunks1000 (l : List String) : List (List String) :=
  (List.range ((l.length + 999) / 1000)).map (fun i => (l.drop (1000 * i)).take 1000)

/-- All delete batches `perform_direct_deletion` issues for an inventory,
in order: per prefix, the 1000-key slices of that prefix's key list. -/
def direct_batches : List (String × List String) → List (List String)
  | [] => []
  | pk :: rest => chunks1000 pk.2 ++ direct_batches rest

/-- The keys of an inventory, in scan order. -/
def inventory_keys : List (String × List String) → List String
  | [] => []
  | pk :: rest => pk.2 ++ inventory_keys rest

/-- `perform_direct_deletion(objects_by_prefix)`: issue one
`delete_objects` call per 1000-key slice of each prefix's key list, summing
`len(response['Deleted'])`; a batch error is swallowed and contributes 0. -/
def perform_direct_deletion (cfg : Config) (st : S3State)
    (inv : List (String × List String)) : Nat × S3State :=
  inv.foldl (fun acc pk =>
    (chunks1000 pk.2).foldl (fun acc2 batch =>
      let r := s3_delete_objects cfg acc2.2 batch
      (acc2.1 + r.1, r.2)) acc) (0, st)

/-- The manifest lines of `create_deletion_manifest`: for every inventory
key, the line `f'{BUCKET_NAME},{key}'`, in scan order. -/
def manifest_lines (cfg : Config) : List (String × List String) → List String
  | [] => []
  | pk :: rest => pk.2.map (fun key => cfg.bucket ++ "," ++ key) ++ manifest_lines cfg rest

/-- `create_deletion_manifest(objects_by_prefix)`: the `bucket,key` lines
joined with `'\n'`. -/
def create_deletion_manifest (cfg : Config) (inv : List (String × List String)) : String :=
  String.intercalate "\n" (manifest_lines cfg inv)

/-- The job-metadata record persisted at `batch-jobs/metadata/{job_id}.json`
(`json.dumps` is modelled as canonical field concatenation). -/
def metadata_record (jobId uid : String) (objectCount : Nat)
    (createdAt manifestKey reportPrefix : String) : String :=
  "jobId=" ++ jobId ++ ";userId=" ++ uid ++ ";objectCount=" ++
    toString objectCount ++ ";createdAt=" ++ createdAt ++ ";manifestKey=" ++
    manifestKey ++ ";reportPrefix=" ++ reportPrefix

/-- `create_batch_operations_job(user_id, objects_by_prefix)`: upload the
manifest, read back its ETag, submit the bulk job referencing that manifest
location and ETag, persist the metadata record, and return the provider's
job id. -/
def create_batch_operations_job (cfg : Config) (clk : Clock) (st : S3State)
    (uid : String) (inv : List (String × List String)) : String × S3State :=
  let manifest_key := "batch-jobs/manifests/" ++ clk.stamp ++ "/" ++ uid ++ "-manifest.csv"
  let manifest_content := create_deletion_manifest cfg inv
  let st1 := s3_put st manifest_key manifest_content
  let hd := s3_head cfg st1 manifest_key
  let manifest_etag := hd.1.getD ""
  let report_prefix := "batch-jobs/reports/" ++ clk.stamp ++ "/" ++ uid
  let st2 := { hd.2 with
    trace := hd.2.trace ++ [Op.createJobOp manifest_key manifest_etag uid] }
  let job_id := cfg.newJobId
  let object_count := (inv.map (fun pk => pk.2.length)).sum
  let st3 := s3_put st2 ("batch-jobs/metadata/" ++ job_id ++ ".json")
    (metadata_record job_id uid object_count clk.iso manifest_key report_prefix)
  (job_id, st3)

/-- One record step of `remove_identity_mappings`: skip the `identities/`
directory marker, read the mapping's content, and delete the record when the
stripped content equals the target user id (a read failure is caught and
skipped). -/
def identity_step (uid : String) (st : S3State) (key : String) : S3State :=
  if key = "identities/" then st
  else
    let g := s3_get st key
    match g.1 with
    | some content => if pyStrip content = uid then s3_delete g.2 key else g.2
    | none => g.2

/-- `remove_identity_mappings(user_id)`: scan every record under
`identities/` and delete those whose content is the user id. -/
def remove_identity_mappings (st : S3State) (uid : String) : S3State :=
  let r := s3_list st "identities/"
  r.1.foldl (identity_step uid) r.2

/-- `remove_scheduled_deletion(user_id)`: delete the first record under
`scheduled-deletions/` whose key contains the user id, then stop. -/
def remove_scheduled_deletion (st : S3State) (uid : String) : S3State :=
  let r := s3_list st "scheduled-deletions/"
  match r.1.find? (fun key => strContains key uid) with
  | some key => s3_delete r.2 key
  | none => r.2

/-- `delete_user_account(user_id)`: count the user's objects, pick the
deletion method by count against the threshold, clean up auxiliary records,
and return the outcome dictionary. -/
def delete_user_account (cfg : Config) (clk : Clock) (st : S3State)
    (uid : String) : Dict × S3State :=
  let c := count_and_list_objects st uid
  let object_count := c.1.1
  let inv := c.1.2
  let st1 := c.2
  if object_count = 0 then
    let st2 := remove_scheduled_deletion (remove_identity_mappings st1 uid) uid
    ([("status", .vStr "completed"), ("userId", .vStr uid),
      ("objectCount", .vNat 0), ("method", .vStr "none"),
      ("message", .vStr "No objects to delete")], st2)
  else
    let st2 := remove_scheduled_deletion (remove_identity_mappings st1 uid) uid
    if object_count ≤ cfg.threshold then
      let d := perform_direct_deletion cfg st2 inv
      ([("status", .vStr "completed"), ("userId", .vStr uid),
        ("objectCount", .vNat object_count), ("deletedCount", .vNat d.1),
        ("method", .vStr "direct"),
        ("message", .vStr "Account deleted successfully")], d.2)
    else
      let j := create_batch_operations_job cfg clk st2 uid inv
      ([("status", .vStr "batch_job_created"), ("userId", .vStr uid),
        ("jobId", .vStr j.1), ("objectCount", .vNat object_count),
        ("method", .vStr "batch"),
        ("message", .vStr ("Batch job " ++ j.1 ++ " created for " ++
          toString object_count ++ " objects"))], j.2)

/-- The normalized job-status result returned by `get_batch_job_status`. -/
structure JobStatusResult where
  jobId : String
  status : String
  createdAt : Option String := none
  priority : Option Nat := none
  progressSummary : Option (Nat × Nat × Nat) := none
  error : Option String := none
  deriving DecidableEq, Repr

/-- `get_batch_job_status(job_id)`: normalize the provider's answer; an
unknown job yields status `NotFound`, any other failure yields status
`Error` carrying the underlying message. -/
def get_batch_job_status (cfg : Config) (jobId : String) : JobStatusResult :=
  match cfg.describeJob jobId with
  | .ok status creationTime priority progress =>
      { jobId := jobId, status := status, createdAt := creationTime,
        priority := priority, progressSummary := progress }
  | .noSuchJob =>
      { jobId := jobId, status := "NotFound", error := some "Job not found" }
  | .failure msg =>
      { jobId := jobId, status := "Error", error := some msg }

/-- The sweep's return value: the processed count and per-entry outcomes
(or the no-entries / listing-error messages). -/
structure SweepResult where
  processed : Nat
  results : List Dict := []
  message : Option String := none
  deriving DecidableEq, Repr

/-- Python `{'userId': user_id, **result}`: `userId` first (its value taken
from `result` when present there, which always equals `uid` here), then the
remaining entries of `result` in order. -/
def merge_user (uid : String) (result : Dict) : Dict :=
  ("userId", (dget result "userId").getD (.vStr uid)) ::
    result.filter (fun p => p.1 != "userId")

/-- The per-entry body of the sweep loop in `process_scheduled_deletions`:
derive the user id from the entry's filename, read and parse the entry, run
`delete_user_account` when `deleteOn <= now`, skip it otherwise, and turn a
read/parse failure into an error outcome for that user. -/
def sweep_step (cfg : Config) (clk : Clock)
    (acc : List Dict × S3State) (key : String) : List Dict × S3State :=
  let uid := replaceStr (lastComponent key) ".json"
  let g := s3_get acc.2 key
  match g.1 with
  | none =>
      (acc.1 ++ [[("userId", .vStr uid), ("status", .vStr "error"),
                  ("error", .vStr "NoSuchKey")]], g.2)
  | some body =>
      match cfg.parseDeleteOn body with
      | .error e =>
          (acc.1 ++ [[("userId", .vStr uid), ("status", .vStr "error"),
                      ("error", .vStr e)]], g.2)
      | .ok deleteOn =>
          if deleteOn ≤ clk.time then
            let d := delete_user_account cfg clk g.2 uid
            (acc.1 ++ [merge_user uid d.1], d.2)
          else
            (acc.1, g.2)

/-- `process_scheduled_deletions()`: list today's scheduled-deletion
entries, run the sweep step on each, and return the processed count with the
recorded outcomes. -/
def process_scheduled_deletions (cfg : Config) (clk : Clock) (st : S3State) :
    SweepResult × S3State :=
  let pre := "scheduled-deletions/" ++ clk.date ++ "/"
  let r := s3_list st pre
  if r.1 = [] then
    ({ processed := 0, message := some "No scheduled deletions for today" }, r.2)
  else
    let f := r.1.foldl (sweep_step cfg clk) ([], r.2)
    ({ processed := f.1.length, results := f.1 }, f.2)

/-- The trigger event consumed by the handler (absent fields are `none`;
an empty-string `userId`/`jobId` is falsy in Python and treated as absent). -/
structure Event where
  type : Option String := none
  userId : Option String := none
  jobId : Option String := none

/-- The body of the handler's HTTP-style response. -/
inductive HBody where
  | single (d : Dict)
  | sweep (s : SweepResult)
  | job (j : JobStatusResult)
  | err (msg : String)
  deriving DecidableEq, Repr

/-- The handler's HTTP-style response. -/
structure HResp where
  statusCode : Nat
  body : HBody
  deriving DecidableEq, Repr

/-- `handler(event, context)`: dispatch on `event.get('type', 'scheduled')`,
guarding the `immediate` action to the development environment. -/
def handler (cfg : Config) (clk : Clock) (ev : Event) (st : S3State) :
    HResp × S3State :=
  let action := ev.type.getD "scheduled"
  if action = "immediate" then
    if cfg.environment ≠ "development" then
      (⟨403, .err "Immediate deletion only allowed in development"⟩, st)
    else
      match ev.userId with
      | none => (⟨400, .err "userId required"⟩, st)
      | some uid =>
          if uid = "" then (⟨400, .err "userId required"⟩, st)
          else
            let d := delete_user_account cfg clk st uid
            (⟨200, .single d.1⟩, d.2)
  else if action = "scheduled" then
    let p := process_scheduled_deletions cfg clk st
    (⟨200, .sweep p.1⟩, p.2)
  else if action = "status" then
    match ev.jobId with
    | none => (⟨400, .err "jobId required"⟩, st)
    | some jid =>
        if jid = "" then (⟨400, .err "jobId required"⟩, st)
        else (⟨200, .job (get_batch_job_status cfg jid)⟩, st)
  else
    (⟨400, .err ("Unknown action: " ++ action)⟩, st)

/-- One prefix of the scan under a fallible listing: an exception already
raised propagates; a listing error for this prefix raises; otherwise the
accumulator is extended as in `scan_prefix`. -/
def scan_prefix_f (listing : String → Except String (List String))
    (acc : Except String (Nat × List (String × List String))) (pre : String) :
    Except String (Nat × List (String × List String)) :=
  match acc with
  | .error e => .error e
  | .ok a =>
    match listing pre with
    | .error e => .error e
    | .ok keys =>
        .ok (a.1 + keys.length, if keys = [] then a.2 else a.2 ++ [(pre, keys)])

/-- `count_and_list_objects` under a fallible listing: the Python `for`
loop over the four prefixes with an exception-raising paginator.  A listing
error for any prefix propagates out of the function (there is no handler
inside it), discarding the locally accumulated counts. -/
def count_and_list_objects_f (listing : String → Except String (List String))
    (uid : String) : Except String (Nat × List (String × List String)) :=
  (userPrefixes uid).foldl (scan_prefix_f listing) (.ok (0, []))

/-- `Except` success test (Python: the function returned rather than
raised). -/
def exceptOk {ε α : Type} : Except ε α → Bool
  | .ok _ => true
  | .error _ => false

/-- The three possible deletion methods of `delete_user_account`. -/
inductive Strategy where
  | empty
  | direct
  | bulk
  deriving DecidableEq, Repr

/-- The strategy-selection logic of `delete_user_account` (lines 124/147/161
of the source), as a pure function of the object count and the threshold. -/
def select_method (count threshold : Nat) : Strategy :=
  if count = 0 then .empty
  else if count ≤ threshold then .direct
  else .bulk

/-- The `method` field `delete_user_account` reports for each strategy. -/
def method_name : Strategy → String
  | .empty => "none"
  | .direct => "direct"
  | .bulk => "batch"

/-- An object that `remove_identity_mappings uid` deletes: an identity
mapping (not the directory marker) whose stripped content is `uid`. -/
def identDoomed (uid : String) (p : String × String) : Bool :=
  hasPrefix "identities/" p.1 && p.1 != "identities/" && (pyStrip p.2 == uid)

/-- An object that `remove_scheduled_deletion uid` may delete: a record
under `scheduled-deletions/` whose key contains `uid`. -/
def schedMatch (uid : String) (p : String × String) : Bool :=
  hasPrefix "scheduled-deletions/" p.1 && strContains p.1 uid

/-! Concrete fixtures used by the scenario parts of the claims and by the
witnesses/counterexamples. -/

/-- A baseline configuration: development environment, default threshold
1000, a store that deletes every requested key, a parse oracle mapping the
two scheduled-entry bodies `"t40"`/`"t160"` to instants 40 and 160. -/
def cfgA : Config :=
  { environment := "development", bucket := "photolala-dev", threshold := 1000,
    etag := fun c => "etag(" ++ c ++ ")", deleteResp := fun b => .ok b [],
    describeJob := fun _ => .noSuchJob,
    parseDeleteOn := fun s =>
      if s = "t40" then .ok 40 else if s = "t160" then .ok 160 else .error "bad entry",
    newJobId := "job-1" }

/-- A sweep instant: epoch value 100 on date bucket `2025-10-12`. -/
def clkA : Clock :=
  { time := 100, date := "2025-10-12", stamp := "20251012-010101",
    iso := "2025-10-12T01:01:01" }

/-- Sweep scenario store: `u1` due (`deleteOn = 40 <= 100`), `u2` not due
(`deleteOn = 160 > 100`), both under today's date bucket. -/
def stSweep : S3State :=
  { objects := [("scheduled-deletions/2025-10-12/u1.json", "t40"),
                ("scheduled-deletions/2025-10-12/u2.json", "t160")],
    trace := [] }

/-- A store holding exactly one object of user `u`. -/
def stOne : S3State := { objects := [("photos/u/a", "x")], trace := [] }

/-- A store whose `delete_objects` always fails with a transport error. -/
def cfgExn : Config := { cfgA with deleteResp := fun _ => .exn "boom" }

/-- A 1500-key inventory of user `u` under the `photos/` namespace. -/
def inv1500 : List (String × List String) :=
  [("photos/u/", (List.range 1500).map (fun i => "photos/u/" ++ toString i))]

/-- A store behaviour where full 1000-key batches succeed and any other
batch fails wholesale: makes batch 2 of `inv1500` (500 keys) fail. -/
def cfgHalf : Config :=
  { cfgA with deleteResp := fun b => if b.length = 1000 then .ok b [] else .exn "batch failed" }

/-- A store with two scheduled-deletion entries whose keys both contain
`u1` (the same user rescheduled under two date buckets). -/
def stSched2 : S3State :=
  { objects := [("scheduled-deletions/2025-01-01/u1.json", "a"),
                ("scheduled-deletions/2025-01-02/u1.json", "b")],
    trace := [] }

/-- A store with no objects of user `u1` but with one identity mapping and
one scheduled-deletion entry for `u1`, plus records of another user. -/
def stAux : S3State :=
  { objects := [("identities/apple:x", "u1"), ("identities/apple:y", "u2"),
                ("scheduled-deletions/2025-10-12/u1.json", "t40")],
    trace := [] }

/-- The baseline configuration in the production environment. -/
def cfgProd : Config := { cfgA with environment := "production" }

/-- The baseline configuration with threshold 0, forcing the bulk path. -/
def cfgZero : Config := { cfgA with threshold := 0 }

/-- A provider whose job-status query always fails with `denied`. -/
def cfgFail : Config := { cfgA with describeJob := fun _ => .failure "denied" }

/-- A listing behaviour where the first user namespace holds two objects
and listing the second namespace raises. -/
def listingBoom : String → Except String (List String) :=
  fun p =>
    if p = "photos/u/" then .ok ["photos/u/a", "photos/u/b"]
    else if p = "thumbnails/u/" then .error "boom"
    else .ok []

/-! Support lemmas. -/

lemma hasPrefix_head {p s : String} {c : Char}
    (hc : p.data.head? = some c) (hp : hasPrefix p s = true) :
    s.data.head? = some c := by
  unfold hasPrefix at hp
  cases hd : p.data with
  | nil => simp [hd] at hc
  | cons a as =>
    rw [hd] at hc hp
    cases hs : s.data with
    | nil => rw [hs] at hp; simp [List.isPrefixOf] at hp
    | cons b bs =>
      rw [hs] at hp
      simp [List.isPrefixOf] at hp
      simp at hc
      simp [hp.1.symm, hc]

lemma hasPrefix_head_ne {p q s : String} {cp cq : Char}
    (hcp : p.data.head? = some cp) (hcq : q.data.head? = some cq)
    (hne : cp ≠ cq) (hp : hasPrefix p s = true) : hasPrefix q s = false := by
  by_contra h
  have hq : hasPrefix q s = true := by
    cases hv : hasPrefix q s
    · exact absurd hv h
    · rfl
  have h1 := hasPrefix_head hcp hp
  have h2 := hasPrefix_head hcq hq
  rw [h1] at h2
  exact hne (Option.some_injective _ h2)

lemma data_head_append {s : String} (t : String) {c : Char}
    (h : s.data.head? = some c) : (s ++ t).data.head? = some c := by
  rw [String.data_append]
  cases hd : s.data with
  | nil => simp [hd] at h
  | cons a as => rw [hd] at h; simpa using h

lemma userPrefixes_head {uid : String} {pre : String}
    (h : pre ∈ userPrefixes uid) :
    pre.data.head? = some 'p' ∨ pre.data.head? = some 't' ∨
    pre.data.head? = some 'c' ∨ pre.data.head? = some 'u' := by
  simp only [userPrefixes, List.mem_cons, List.not_mem_nil, or_false] at h
  rcases h with h | h | h | h <;> subst h
  · exact Or.inl (data_head_append _ (data_head_append _ (by decide)))
  · exact Or.inr (Or.inl (data_head_append _ (data_head_append _ (by decide))))
  · exact Or.inr (Or.inr (Or.inl (data_head_append _ (data_head_append _ (by decide)))))
  · exact Or.inr (Or.inr (Or.inr (data_head_append _ (data_head_append _ (by decide)))))

/-- A key under `identities/` or `scheduled-deletions/` is under none of the
per-user object namespaces. -/
lemma aux_key_not_user_prefix {k uid : String} {pre : String}
    (hpre : pre ∈ userPrefixes uid)
    (hk : hasPrefix "identities/" k = true ∨ hasPrefix "scheduled-deletions/" k = true) :
    hasPrefix pre k = false := by
  have hi : ("identities/").data.head? = some 'i' := by decide
  have hsd : ("scheduled-deletions/").data.head? = some 's' := by decide
  rcases userPrefixes_head hpre with hh | hh | hh | hh <;>
    rcases hk with hk | hk
  · exact hasPrefix_head_ne hi hh (by decide) hk
  · exact hasPrefix_head_ne hsd hh (by decide) hk
  · exact hasPrefix_head_ne hi hh (by decide) hk
  · exact hasPrefix_head_ne hsd hh (by decide) hk
  · exact hasPrefix_head_ne hi hh (by decide) hk
  · exact hasPrefix_head_ne hsd hh (by decide) hk
  · exact hasPrefix_head_ne hi hh (by decide) hk
  · exact hasPrefix_head_ne hsd hh (by decide) hk

lemma chunks1000_nil : chunks1000 [] = [] := rfl

lemma chunks1000_ne_nil {l : List String} (h : l ≠ []) :
    chunks1000 l = l.take 1000 :: chunks1000 (l.drop 1000) := by
  have hn : 0 < l.length := List.length_pos.mpr h
  have hcount : (l.length + 999) / 1000 = ((l.drop 1000).length + 999) / 1000 + 1 := by
    rw [List.length_drop]
    omega
  unfold chunks1000
  rw [hcount, List.range_succ_eq_map, List.map_cons, List.map_map]
  have h0 : (l.drop (1000 * 0)).take 1000 = l.take 1000 := by simp
  rw [h0]
  congr 1
  apply List.map_congr_left
  intro i _
  show (l.drop (1000 * (i + 1))).take 1000 = ((l.drop 1000).drop (1000 * i)).take 1000
  rw [List.drop_drop]
  have hidx : 1000 * (i + 1) = 1000 + 1000 * i := by ring
  rw [hidx]

lemma chunks1000_length_le {l : List String} {b : List String}
    (h : b ∈ chunks1000 l) : b.length ≤ 1000 := by
  rw [chunks1000] at h
  obtain ⟨i, _, rfl⟩ := List.mem_map.mp h
  calc ((l.drop (1000 * i)).take 1000).length ≤ 1000 := by
        simp [List.length_take]

lemma chunks1000_flatten_aux :
    ∀ (n : Nat) (l : List String), l.length ≤ n → (chunks1000 l).flatten = l := by
  intro n
  induction n with
  | zero =>
    intro l hl
    have : l = [] := List.eq_nil_of_length_eq_zero (Nat.le_zero.mp hl)
    subst this
    rfl
  | succ n ih =>
    intro l hl
    by_cases h : l = []
    · subst h; rfl
    · rw [chunks1000_ne_nil h, List.flatten_cons,
        ih (l.drop 1000) (by rw [List.length_drop]; omega)]
      exact List.take_append_drop 1000 l

lemma chunks1000_flatten (l : List String) : (chunks1000 l).flatten = l :=
  chunks1000_flatten_aux l.length l (Nat.le_refl _)

lemma direct_batches_flatten (inv : List (String × List String)) :
    (direct_batches inv).flatten = inventory_keys inv := by
  induction inv with
  | nil => rfl
  | cons pk rest ih =>
    rw [direct_batches, inventory_keys, List.flatten_append, chunks1000_flatten, ih]

lemma direct_batches_length_le {inv : List (String × List String)}
    {b : List String} (h : b ∈ direct_batches inv) : b.length ≤ 1000 := by
  induction inv with
  | nil => simp [direct_batches] at h
  | cons pk rest ih =>
    rw [direct_batches, List.mem_append] at h
    rcases h with h | h
    · exact chunks1000_length_le h
    · exact ih h

lemma manifest_lines_eq (cfg : Config) (inv : List (String × List String)) :
    manifest_lines cfg inv = (inventory_keys inv).map (fun k => cfg.bucket ++ "," ++ k) := by
  induction inv with
  | nil => rfl
  | cons pk rest ih => rw [manifest_lines, inventory_keys, List.map_append, ih]

lemma s3_delete_objects_trace (cfg : Config) (st : S3State) (keys : List String) :
    (s3_delete_objects cfg st keys).2.trace = st.trace ++ [Op.deleteObjectsOp keys] := by
  rw [s3_delete_objects]
  cases cfg.deleteResp keys <;> rfl

lemma fold_batches_trace (cfg : Config) :
    ∀ (batches : List (List String)) (acc : Nat × S3State),
      ((batches.foldl (fun acc2 batch =>
          let r := s3_delete_objects cfg acc2.2 batch
          (acc2.1 + r.1, r.2)) acc)).2.trace
        = acc.2.trace ++ batches.map Op.deleteObjectsOp := by
  intro batches
  induction batches with
  | nil => intro acc; simp
  | cons b rest ih =>
    intro acc
    rw [List.foldl_cons, ih, List.map_cons]
    show (s3_delete_objects cfg acc.2 b).2.trace ++ _ = _
    rw [s3_delete_objects_trace]
    simp

lemma perform_direct_deletion_trace (cfg : Config) (st : S3State)
    (inv : List (String × List String)) :
    (perform_direct_deletion cfg st inv).2.trace
      = st.trace ++ (direct_batches inv).map Op.deleteObjectsOp := by
  rw [perform_direct_deletion]
  suffices h : ∀ (inv : List (String × List String)) (acc : Nat × S3State),
      (inv.foldl (fun acc pk =>
        (chunks1000 pk.2).foldl (fun acc2 batch =>
          let r := s3_delete_objects cfg acc2.2 batch
          (acc2.1 + r.1, r.2)) acc) acc).2.trace
        = acc.2.trace ++ (direct_batches inv).map Op.deleteObjectsOp by
    exact h inv (0, st)
  intro inv
  induction inv with
  | nil => intro acc; simp [direct_batches]
  | cons pk rest ih =>
    intro acc
    rw [List.foldl_cons, ih, fold_batches_trace, direct_batches, List.map_append]
    simp

lemma find?_s3_put (st : S3State) (k c : String) :
    ((s3_put st k c).objects.find? (fun p => p.1 == k)) = some (k, c) := by
  rw [s3_put]
  show List.find? _ (_ ++ [(k, c)]) = _
  rw [List.find?_append]
  have h1 : (st.objects.filter (fun p => p.1 != k)).find? (fun p => p.1 == k) = none := by
    rw [List.find?_eq_none]
    intro p hp
    have := (List.mem_filter.mp hp).2
    simpa using this
  rw [h1]
  simp

lemma nodup_keys_filter (l : List (String × String)) (p : String × String → Bool)
    (h : (l.map Prod.fst).Nodup) : ((l.filter p).map Prod.fst).Nodup := by
  have hsub : (l.filter p).Sublist l := l.filter_sublist
  exact (hsub.map Prod.fst).nodup h

/-- One `remove_identity_mappings` iteration deletes exactly the store's
record under the visited key when it is a non-marker mapping whose stripped
content is the target user id. -/
lemma identity_step_objects (st : S3State) (uid k : String)
    (hnd : (st.objects.map Prod.fst).Nodup) :
    (identity_step uid st k).objects
      = st.objects.filter
          (fun p => !(p.1 == k && !(k == "identities/") && (pyStrip p.2 == uid))) := by
  by_cases hk : k = "identities/"
  · rw [identity_step, if_pos hk]
    symm
    apply List.filter_eq_self.mpr
    intro p _
    simp [hk]
  · rw [identity_step, if_neg hk]
    simp only [s3_get]
    cases hf : st.objects.find? (fun p => p.1 == k) with
    | none =>
      have hnone : ∀ p ∈ st.objects, ¬((fun p => p.1 == k) p = true) :=
        List.find?_eq_none.mp hf
      simp only [Option.map]
      symm
      apply List.filter_eq_self.mpr
      intro p hp
      have : (p.1 == k) = false := by
        cases hv : (p.1 == k)
        · rfl
        · exact absurd hv (hnone p hp)
      simp [this]
    | some q =>
      have hqk : q.1 = k := by
        have hq1 := List.find?_some hf
        simpa using hq1
      have hqmem : q ∈ st.objects := List.mem_of_find?_eq_some hf
      simp only [Option.map]
      by_cases hs : pyStrip q.2 = uid
      · rw [if_pos hs]
        simp only [s3_delete]
        apply List.filter_congr
        intro p hp
        by_cases hpk : p.1 = k
        · have hpq : p = q := List.inj_on_of_nodup_map hnd hp hqmem (by rw [hpk, hqk])
          subst hpq
          simp [hpk, hk, hs]
        · have hb : (p.1 == k) = false := by simpa using hpk
          simp [bne, hb]
      · rw [if_neg hs]
        symm
        apply List.filter_eq_self.mpr
        intro p hp
        by_cases hpk : p.1 = k
        · have hpq : p = q := List.inj_on_of_nodup_map hnd hp hqmem (by rw [hpk, hqk])
          subst hpq
          simp [hpk, hs]
        · have hb : (p.1 == k) = false := by simpa using hpk
          simp [hb]

/-- The full `remove_identity_mappings` scan over a key list deletes
exactly the records whose key is in the list (marker aside) and whose
stripped content is the target user id. -/
lemma fold_identity_step_objects (uid : String) :
    ∀ (K : List String) (st : S3State), (st.objects.map Prod.fst).Nodup →
      (K.foldl (identity_step uid) st).objects
        = st.objects.filter
            (fun p => !(K.contains p.1 && !(p.1 == "identities/") && (pyStrip p.2 == uid))) := by
  intro K
  induction K with
  | nil =>
    intro st _
    symm
    apply List.filter_eq_self.mpr
    intro p _
    simp
  | cons k K ih =>
    intro st hnd
    rw [List.foldl_cons]
    have hstep := identity_step_objects st uid k hnd
    have hnd2 : (((identity_step uid st k).objects).map Prod.fst).Nodup := by
      rw [hstep]; exact nodup_keys_filter _ _ hnd
    rw [ih (identity_step uid st k) hnd2, hstep, List.filter_filter]
    apply List.filter_congr
    intro p hp
    by_cases hpk : p.1 = k
    · rw [hpk]
      by_cases hmem : k ∈ K <;> cases hm : (k == "identities/") <;>
        cases hB : (pyStrip p.2 == uid) <;> simp [hmem, hm, hB]
    · by_cases hmem : p.1 ∈ K <;> simp [hpk, hmem]

/-- `remove_identity_mappings` keeps exactly the objects that are not
doomed identity mappings of the user. -/
lemma remove_identity_mappings_objects (st : S3State) (uid : String)
    (hnd : (st.objects.map Prod.fst).Nodup) :
    (remove_identity_mappings st uid).objects
      = st.objects.filter (fun p => !(identDoomed uid p)) := by
  rw [remove_identity_mappings]
  have hfold := fold_identity_step_objects uid
    ((s3_list st "identities/").1) ((s3_list st "identities/").2) (by simpa [s3_list] using hnd)
  rw [hfold]
  show st.objects.filter _ = st.objects.filter _
  apply List.filter_congr
  intro p hp
  have hcont : ((s3_list st "identities/").1).contains p.1 = hasPrefix "identities/" p.1 := by
    cases hv : hasPrefix "identities/" p.1
    · cases hc : ((s3_list st "identities/").1).contains p.1
      · rfl
      · exfalso
        have hmem : p.1 ∈ (s3_list st "identities/").1 := by simpa using hc
        simp only [s3_list] at hmem
        obtain ⟨q, hq, hqp⟩ := List.mem_map.mp hmem
        have := (List.mem_filter.mp hq).2
        rw [hqp] at this
        rw [hv] at this
        exact Bool.false_ne_true this
    · have hmem : p.1 ∈ (s3_list st "identities/").1 := by
        simp only [s3_list]
        exact List.mem_map.mpr ⟨p, List.mem_filter.mpr ⟨hp, hv⟩, rfl⟩
      simp [hmem]
  rw [identDoomed, hcont]
  simp [bne]

/-- After `remove_identity_mappings` no doomed mapping of the user remains. -/
lemma remove_identity_no_doomed (st : S3State) (uid : String)
    (hnd : (st.objects.map Prod.fst).Nodup) :
    ∀ p ∈ (remove_identity_mappings st uid).objects, identDoomed uid p = false := by
  intro p hp
  rw [remove_identity_mappings_objects st uid hnd] at hp
  have := (List.mem_filter.mp hp).2
  simpa using this

/-- If a store holds no doomed mapping, `remove_identity_mappings` leaves
its objects unchanged. -/
lemma remove_identity_noop (st : S3State) (uid : String)
    (hnd : (st.objects.map Prod.fst).Nodup)
    (hclean : ∀ p ∈ st.objects, identDoomed uid p = false) :
    (remove_identity_mappings st uid).objects = st.objects := by
  rw [remove_identity_mappings_objects st uid hnd]
  apply List.filter_eq_self.mpr
  intro p hp
  simp [hclean p hp]

/-- Running `remove_identity_mappings` twice deletes nothing further. -/
lemma remove_identity_mappings_idem (st : S3State) (uid : String)
    (hnd : (st.objects.map Prod.fst).Nodup) :
    (remove_identity_mappings (remove_identity_mappings st uid) uid).objects
      = (remove_identity_mappings st uid).objects := by
  have hnd2 : ((remove_identity_mappings st uid).objects.map Prod.fst).Nodup := by
    rw [remove_identity_mappings_objects st uid hnd]
    exact nodup_keys_filter _ _ hnd
  exact remove_identity_noop _ _ hnd2 (remove_identity_no_doomed st uid hnd)

/-- `remove_scheduled_deletion` either deletes the first matching key or
leaves the objects unchanged. -/
lemma remove_scheduled_objects_eq (st : S3State) (uid : String) :
    (remove_scheduled_deletion st uid).objects
      = match ((s3_list st "scheduled-deletions/").1).find?
          (fun key => strContains key uid) with
        | some k => st.objects.filter (fun p => p.1 != k)
        | none => st.objects := by
  simp only [remove_scheduled_deletion]
  cases hf : ((s3_list st "scheduled-deletions/").1).find? (fun key => strContains key uid) <;>
    simp [hf, s3_delete, s3_list]

lemma remove_scheduled_objects_subset (st : S3State) (uid : String) :
    ∀ p ∈ (remove_scheduled_deletion st uid).objects, p ∈ st.objects := by
  intro p hp
  rw [remove_scheduled_objects_eq] at hp
  cases hf : ((s3_list st "scheduled-deletions/").1).find? (fun key => strContains key uid) with
  | none => rw [hf] at hp; exact hp
  | some k => rw [hf] at hp; exact (List.mem_filter.mp hp).1

/-- The key found by `remove_scheduled_deletion` belongs to a stored object
under the scheduled-deletions namespace whose key contains the user id. -/
lemma sched_entry_pair (st : S3State) (uid k : String)
    (hf : ((s3_list st "scheduled-deletions/").1).find?
        (fun key => strContains key uid) = some k) :
    strContains k uid = true ∧
    ∃ c, (k, c) ∈ st.objects ∧ hasPrefix "scheduled-deletions/" k = true := by
  constructor
  · have h := List.find?_some hf
    simpa using h
  · have hk : k ∈ (s3_list st "scheduled-deletions/").1 := List.mem_of_find?_eq_some hf
    simp only [s3_list] at hk
    obtain ⟨q, hq, hqk⟩ := List.mem_map.mp hk
    obtain ⟨hqmem, hqpre⟩ := List.mem_filter.mp hq
    refine ⟨q.2, ?_, ?_⟩
    · rw [← hqk]; exact hqmem
    · rw [← hqk]; exact hqpre

/-- When at most one stored object matches the user id,
`remove_scheduled_deletion` leaves no matching object behind. -/
lemma remove_scheduled_no_match (st : S3State) (uid : String)
    (huniq : ∀ p ∈ st.objects, ∀ q ∈ st.objects,
      schedMatch uid p = true → schedMatch uid q = true → p = q) :
    ∀ p ∈ (remove_scheduled_deletion st uid).objects, schedMatch uid p = false := by
  intro p hp
  cases hv : schedMatch uid p
  · rfl
  exfalso
  have hsplit : hasPrefix "scheduled-deletions/" p.1 = true ∧ strContains p.1 uid = true := by
    rw [schedMatch] at hv
    simpa using hv
  have hpre : hasPrefix "scheduled-deletions/" p.1 = true := hsplit.1
  have hcon : strContains p.1 uid = true := hsplit.2
  rw [remove_scheduled_objects_eq] at hp
  cases hf : ((s3_list st "scheduled-deletions/").1).find? (fun key => strContains key uid) with
  | none =>
    rw [hf] at hp
    have hlist : p.1 ∈ (s3_list st "scheduled-deletions/").1 := by
      simp only [s3_list]
      exact List.mem_map.mpr ⟨p, List.mem_filter.mpr ⟨hp, hpre⟩, rfl⟩
    exact List.find?_eq_none.mp hf p.1 hlist hcon
  | some k =>
    rw [hf] at hp
    have hpmem : p ∈ st.objects := (List.mem_filter.mp hp).1
    have hpk : (p.1 != k) = true := (List.mem_filter.mp hp).2
    obtain ⟨hkcon, c, hkmem, hkpre⟩ := sched_entry_pair st uid k hf
    have hqmatch : schedMatch uid (k, c) = true := by
      rw [schedMatch]; simp [hkpre, hkcon]
    have heq := huniq p hpmem (k, c) hkmem hv hqmatch
    rw [heq] at hpk
    simp at hpk

/-- Running `remove_scheduled_deletion` twice deletes nothing further, as
long as at most one stored object matches the user id. -/
lemma remove_scheduled_idem (st : S3State) (uid : String)
    (huniq : ∀ p ∈ st.objects, ∀ q ∈ st.objects,
      schedMatch uid p = true → schedMatch uid q = true → p = q) :
    (remove_scheduled_deletion (remove_scheduled_deletion st uid) uid).objects
      = (remove_scheduled_deletion st uid).objects := by
  have hnm := remove_scheduled_no_match st uid huniq
  rw [remove_scheduled_objects_eq (remove_scheduled_deletion st uid) uid]
  cases hf : ((s3_list (remove_scheduled_deletion st uid) "scheduled-deletions/").1).find?
      (fun key => strContains key uid) with
  | none => rfl
  | some k =>
    exfalso
    obtain ⟨hkcon, c, hkmem, hkpre⟩ := sched_entry_pair _ uid k hf
    have h := hnm (k, c) hkmem
    rw [schedMatch] at h
    simp [hkpre, hkcon] at h

lemma identity_step_trace (uid : String) (st : S3State) (k : String) :
    ∀ op ∈ (identity_step uid st k).trace,
      op ∈ st.trace ∨ op = Op.getOp k ∨ op = Op.deleteObjectOp k := by
  intro op hop
  rw [identity_step] at hop
  by_cases hk : k = "identities/"
  · rw [if_pos hk] at hop
    exact Or.inl hop
  · rw [if_neg hk] at hop
    simp only [s3_get] at hop
    cases hf : st.objects.find? (fun p => p.1 == k) with
    | none =>
      rw [hf] at hop
      simp only [Option.map] at hop
      rcases List.mem_append.mp hop with h | h
      · exact Or.inl h
      · simp at h; exact Or.inr (Or.inl h)
    | some q =>
      rw [hf] at hop
      simp only [Option.map] at hop
      by_cases hs : pyStrip q.2 = uid
      · rw [if_pos hs] at hop
        simp only [s3_delete] at hop
        rcases List.mem_append.mp hop with h | h
        · rcases List.mem_append.mp h with h2 | h2
          · exact Or.inl h2
          · simp at h2; exact Or.inr (Or.inl h2)
        · simp at h; exact Or.inr (Or.inr h)
      · rw [if_neg hs] at hop
        rcases List.mem_append.mp hop with h | h
        · exact Or.inl h
        · simp at h; exact Or.inr (Or.inl h)

lemma fold_identity_trace (uid : String) :
    ∀ (K : List String) (st : S3State), ∀ op ∈ (K.foldl (identity_step uid) st).trace,
      op ∈ st.trace ∨ ∃ k ∈ K, op = Op.getOp k ∨ op = Op.deleteObjectOp k := by
  intro K
  induction K with
  | nil => intro st op hop; exact Or.inl hop
  | cons k K ih =>
    intro st op hop
    rw [List.foldl_cons] at hop
    rcases ih (identity_step uid st k) op hop with h | ⟨k2, hk2, h⟩
    · rcases identity_step_trace uid st k op h with h | h | h
      · exact Or.inl h
      · exact Or.inr ⟨k, by simp, Or.inl h⟩
      · exact Or.inr ⟨k, by simp, Or.inr h⟩
    · exact Or.inr ⟨k2, by simp [hk2], h⟩

/-- Every operation `remove_identity_mappings` adds to the trace is the
listing, a record read, or the deletion of a key under `identities/`. -/
lemma remove_identity_mappings_trace (st : S3State) (uid : String) :
    ∀ op ∈ (remove_identity_mappings st uid).trace,
      op ∈ st.trace ∨ op = Op.listOp "identities/" ∨
      ∃ k, hasPrefix "identities/" k = true ∧
        (op = Op.getOp k ∨ op = Op.deleteObjectOp k) := by
  intro op hop
  rw [remove_identity_mappings] at hop
  rcases fold_identity_trace uid (s3_list st "identities/").1 (s3_list st "identities/").2
      op hop with h | ⟨k, hkmem, h⟩
  · simp only [s3_list] at h
    rcases List.mem_append.mp h with h2 | h2
    · exact Or.inl h2
    · simp at h2; exact Or.inr (Or.inl h2)
  · refine Or.inr (Or.inr ⟨k, ?_, h⟩)
    simp only [s3_list] at hkmem
    obtain ⟨q, hq, hqk⟩ := List.mem_map.mp hkmem
    rw [← hqk]
    exact (List.mem_filter.mp hq).2

/-- Every operation `remove_scheduled_deletion` adds to the trace is the
listing or the deletion of a key under `scheduled-deletions/`. -/
lemma remove_scheduled_trace (st : S3State) (uid : String) :
    ∀ op ∈ (remove_scheduled_deletion st uid).trace,
      op ∈ st.trace ∨ op = Op.listOp "scheduled-deletions/" ∨
      ∃ k, hasPrefix "scheduled-deletions/" k = true ∧ op = Op.deleteObjectOp k := by
  intro op hop
  simp only [remove_scheduled_deletion] at hop
  cases hf : ((s3_list st "scheduled-deletions/").1).find? (fun key => strContains key uid) with
  | none =>
    rw [hf] at hop
    simp only [s3_list] at hop
    rcases List.mem_append.mp hop with h | h
    · exact Or.inl h
    · simp at h; exact Or.inr (Or.inl h)
  | some k =>
    rw [hf] at hop
    simp only [s3_delete, s3_list] at hop
    rcases List.mem_append.mp hop with h | h
    · rcases List.mem_append.mp h with h2 | h2
      · exact Or.inl h2
      · simp at h2; exact Or.inr (Or.inl h2)
    · simp at h
      obtain ⟨hkcon, c, hkmem, hkpre⟩ := sched_entry_pair st uid k hf
      exact Or.inr (Or.inr ⟨k, hkpre, h⟩)

/-- The inventory scan reads but never writes: it preserves the objects and
appends exactly the four namespace listings to the trace. -/
lemma count_state (st : S3State) (uid : String) :
    (count_and_list_objects st uid).2.objects = st.objects ∧
    (count_and_list_objects st uid).2.trace
      = st.trace ++ [Op.listOp ("photos/" ++ uid ++ "/"),
          Op.listOp ("thumbnails/" ++ uid ++ "/"),
          Op.listOp ("catalogs/" ++ uid ++ "/"),
          Op.listOp ("users/" ++ uid ++ "/")] := by
  constructor <;>
    simp [count_and_list_objects, userPrefixes, scan_prefix, s3_list]

/-- With no object under any of the user's namespaces, the scan reports a
zero count and an empty inventory. -/
lemma count_empty (st : S3State) (uid : String)
    (hobj : ∀ p ∈ st.objects, ∀ pre ∈ userPrefixes uid, hasPrefix pre p.1 = false) :
    (count_and_list_objects st uid).1 = (0, []) := by
  have hfil : ∀ pre ∈ userPrefixes uid,
      st.objects.filter (fun p => hasPrefix pre p.1) = [] := by
    intro pre hpre
    apply List.filter_eq_nil_iff.mpr
    intro p hp
    simp [hobj p hp pre hpre]
  have h1 := hfil ("photos/" ++ uid ++ "/") (by simp [userPrefixes])
  have h2 := hfil ("thumbnails/" ++ uid ++ "/") (by simp [userPrefixes])
  have h3 := hfil ("catalogs/" ++ uid ++ "/") (by simp [userPrefixes])
  have h4 := hfil ("users/" ++ uid ++ "/") (by simp [userPrefixes])
  simp [count_and_list_objects, userPrefixes, scan_prefix, s3_list, h1, h2, h3, h4]

lemma s3_head_put (cfg : Config) (st : S3State) (k c : String) :
    (s3_head cfg (s3_put st k c) k).1 = some (cfg.etag c) := by
  simp only [s3_head]
  rw [find?_s3_put]
  rfl

/-- The manifest upload issued by `create_batch_operations_job`. -/
lemma put_manifest_mem (cfg : Config) (clk : Clock) (st : S3State) (uid : String)
    (inv : List (String × List String)) :
    Op.putOp ("batch-jobs/manifests/" ++ clk.stamp ++ "/" ++ uid ++ "-manifest.csv")
        (create_deletion_manifest cfg inv)
      ∈ (create_batch_operations_job cfg clk st uid inv).2.trace := by
  simp only [create_batch_operations_job]
  rw [s3_head_put]
  simp [s3_put, s3_head, List.mem_append]

/-- The job submission issued by `create_batch_operations_job` references
the manifest key and the fingerprint of the uploaded manifest content. -/
lemma createJob_mem (cfg : Config) (clk : Clock) (st : S3State) (uid : String)
    (inv : List (String × List String)) :
    Op.createJobOp ("batch-jobs/manifests/" ++ clk.stamp ++ "/" ++ uid ++ "-manifest.csv")
        (cfg.etag (create_deletion_manifest cfg inv)) uid
      ∈ (create_batch_operations_job cfg clk st uid inv).2.trace := by
  simp only [create_batch_operations_job]
  rw [s3_head_put]
  simp [s3_put, s3_head, List.mem_append]

/-! Claim theorems. -/

/-- C1: for every single-user deletion the strategy is selected purely by
object count against the configured threshold: count 0 short-circuits to the
`Empty` outcome (method `none`) before strategy selection, `0 < count <=
threshold` selects direct deletion, `count > threshold` selects the bulk
path; an inventory of exactly 1000 objects selects direct and 1001 selects
bulk, and `delete_user_account` reports exactly the method `select_method`
picks for the scanned count. -/
theorem C1_strategy_selection :
    (∀ t, select_method 0 t = .empty) ∧
    (∀ n t, 0 < n → n ≤ t → select_method n t = .direct) ∧
    (∀ n t, t < n → select_method n t = .bulk) ∧
    select_method 1000 1000 = .direct ∧
    select_method 1001 1000 = .bulk ∧
    ∀ (cfg : Config) (clk : Clock) (st : S3State) (uid : String),
      dget (delete_user_account cfg clk st uid).1 "method"
        = some (.vStr (method_name
            (select_method (count_and_list_objects st uid).1.1 cfg.threshold))) := by
  refine ⟨?_, ?_, ?_, by decide, by decide, ?_⟩
  · intro t
    rw [select_method, if_pos rfl]
  · intro n t h1 h2
    rw [select_method, if_neg (by omega), if_pos h2]
  · intro n t h
    rw [select_method, if_neg (by omega), if_neg (by omega)]
  · intro cfg clk st uid
    by_cases h0 : (count_and_list_objects st uid).1.1 = 0
    · simp [delete_user_account, select_method, h0, dget, method_name, List.lookup]
    · by_cases hle : (count_and_list_objects st uid).1.1 ≤ cfg.threshold
      · simp [delete_user_account, select_method, h0, hle, dget, method_name, List.lookup]
      · simp [delete_user_account, select_method, h0, hle, dget, method_name, List.lookup]

/-- Witness for C1 at concrete inputs. -/
theorem C1_strategy_selection_witness :
    select_method 500 1000 = .direct ∧ select_method 1500 1000 = .bulk ∧
    dget (delete_user_account cfgA clkA stOne "u").1 "method"
      = some (.vStr (method_name
          (select_method (count_and_list_objects stOne "u").1.1 cfgA.threshold))) :=
  ⟨C1_strategy_selection.2.1 500 1000 (by decide) (by decide),
   C1_strategy_selection.2.2.1 1500 1000 (by decide),
   C1_strategy_selection.2.2.2.2.2 cfgA clkA stOne "u"⟩

/-- C2: the direct deletion executor issues multi-object delete batches of
at most 1000 keys, and the concatenation of all issued batches is exactly
the inventory's key sequence (each key once), the batches being exactly the
`deleteObjectsOp` calls `perform_direct_deletion` appends to the trace. -/
theorem C2_direct_batches :
    ∀ (inv : List (String × List String)) (cfg : Config) (st : S3State),
      (∀ b ∈ direct_batches inv, b.length ≤ 1000) ∧
      (direct_batches inv).flatten = inventory_keys inv ∧
      (perform_direct_deletion cfg st inv).2.trace
        = st.trace ++ (direct_batches inv).map Op.deleteObjectsOp := by
  intro inv cfg st
  exact ⟨fun b hb => direct_batches_length_le hb, direct_batches_flatten inv,
    perform_direct_deletion_trace cfg st inv⟩

/-- Witness for C2 at concrete inputs. -/
theorem C2_direct_batches_witness :
    ["photos/u/a"] ∈ direct_batches [("photos/u/", ["photos/u/a"])] ∧
    ["photos/u/a"].length ≤ 1000 ∧
    (direct_batches inv1500).flatten = inventory_keys inv1500 :=
  ⟨by decide,
   (C2_direct_batches [("photos/u/", ["photos/u/a"])] cfgA stOne).1 ["photos/u/a"] (by decide),
   (C2_direct_batches inv1500 cfgA stOne).2.1⟩

/-- C3: for every inventory taking the bulk path, the manifest has exactly
one `bucket,key` line per inventory object (newline-joined, no header), and
the submitted bulk job references the manifest's key together with the
fingerprint of the uploaded manifest content read back from the store;
when the scanned count exceeds the threshold, `delete_user_account` submits
exactly such a job. -/
theorem C3_bulk_manifest :
    ∀ (cfg : Config) (clk : Clock) (st : S3State) (uid : String)
      (inv : List (String × List String)),
      create_deletion_manifest cfg inv
        = String.intercalate "\n" (manifest_lines cfg inv) ∧
      manifest_lines cfg inv
        = (inventory_keys inv).map (fun k => cfg.bucket ++ "," ++ k) ∧
      (manifest_lines cfg inv).length = (inventory_keys inv).length ∧
      Op.putOp ("batch-jobs/manifests/" ++ clk.stamp ++ "/" ++ uid ++ "-manifest.csv")
          (create_deletion_manifest cfg inv)
        ∈ (create_batch_operations_job cfg clk st uid inv).2.trace ∧
      Op.createJobOp ("batch-jobs/manifests/" ++ clk.stamp ++ "/" ++ uid ++ "-manifest.csv")
          (cfg.etag (create_deletion_manifest cfg inv)) uid
        ∈ (create_batch_operations_job cfg clk st uid inv).2.trace ∧
      ∀ (n : Nat) (inv2 : List (String × List String)) (st1 : S3State),
        count_and_list_objects st uid = ((n, inv2), st1) →
        cfg.threshold < n →
        Op.createJobOp ("batch-jobs/manifests/" ++ clk.stamp ++ "/" ++ uid ++ "-manifest.csv")
            (cfg.etag (create_deletion_manifest cfg inv2)) uid
          ∈ (delete_user_account cfg clk st uid).2.trace := by
  intro cfg clk st uid inv
  refine ⟨rfl, manifest_lines_eq cfg inv, ?_, put_manifest_mem cfg clk st uid inv,
    createJob_mem cfg clk st uid inv, ?_⟩
  · rw [manifest_lines_eq]
    exact List.length_map _ _
  · intro n inv2 st1 hc hgt
    simp only [delete_user_account, hc]
    rw [if_neg (by omega)]
    rw [if_neg (by omega)]
    exact createJob_mem cfg clk _ uid inv2

/-- Witness for C3 at concrete inputs: a one-object store with threshold 0
goes down the bulk path and submits a job for its manifest. -/
theorem C3_bulk_manifest_witness :
    count_and_list_objects stOne "u"
      = ((1, [("photos/u/", ["photos/u/a"])]),
         ⟨[("photos/u/a", "x")],
          [Op.listOp "photos/u/", Op.listOp "thumbnails/u/",
           Op.listOp "catalogs/u/", Op.listOp "users/u/"]⟩) ∧
    cfgZero.threshold < 1 ∧
    Op.createJobOp ("batch-jobs/manifests/" ++ clkA.stamp ++ "/" ++ "u" ++ "-manifest.csv")
        (cfgZero.etag (create_deletion_manifest cfgZero [("photos/u/", ["photos/u/a"])])) "u"
      ∈ (delete_user_account cfgZero clkA stOne "u").2.trace :=
  ⟨by decide, by decide,
   (C3_bulk_manifest cfgZero clkA stOne "u" []).2.2.2.2.2
     1 [("photos/u/", ["photos/u/a"])]
     ⟨[("photos/u/a", "x")],
      [Op.listOp "photos/u/", Op.listOp "thumbnails/u/",
       Op.listOp "catalogs/u/", Op.listOp "users/u/"]⟩
     (by decide) (by decide)⟩

/-- C4 counterexample: with a one-object store whose delete batch fails
wholesale, `delete_user_account` still reports `completed` with
`deletedCount` 0, and its result carries no `failedKeys` entry at all —
the executor returns only the deleted count; failed keys are logged, not
returned. -/
theorem C4_counterexample :
    cfgExn.deleteResp ["photos/u/a"] = .exn "boom" ∧
    dget (delete_user_account cfgExn clkA stOne "u").1 "deletedCount" = some (.vNat 0) ∧
    dget (delete_user_account cfgExn clkA stOne "u").1 "status" = some (.vStr "completed") ∧
    dget (delete_user_account cfgExn clkA stOne "u").1 "failedKeys" = none :=
  ⟨by decide, by decide, by decide, by decide⟩

/-- C4 amended: the direct path reports the total count of keys the store
confirmed deleted and the outcome stays `completed`, but the result has no
`failedKeys` entry (per-key failures are only logged); in the 1500-key
two-batch scenario with batch 2 failing wholesale the executor counts
exactly the 1000 deletions of batch 1. -/
theorem C4_direct_result :
    (∀ (cfg : Config) (clk : Clock) (st : S3State) (uid : String)
       (n : Nat) (inv : List (String × List String)) (st1 : S3State),
      count_and_list_objects st uid = ((n, inv), st1) →
      0 < n → n ≤ cfg.threshold →
      (delete_user_account cfg clk st uid).1
        = [("status", .vStr "completed"), ("userId", .vStr uid),
           ("objectCount", .vNat n),
           ("deletedCount", .vNat (perform_direct_deletion cfg
              (remove_scheduled_deletion (remove_identity_mappings st1 uid) uid) inv).1),
           ("method", .vStr "direct"),
           ("message", .vStr "Account deleted successfully")] ∧
      dget (delete_user_account cfg clk st uid).1 "failedKeys" = none) ∧
    (inventory_keys inv1500).length = 1500 ∧
    (direct_batches inv1500).length = 2 ∧
    cfgHalf.deleteResp (List.getD (direct_batches inv1500) 1 []) = .exn "batch failed" ∧
    (perform_direct_deletion cfgHalf ⟨[], []⟩ inv1500).1 = 1000 := by
  refine ⟨?_, by decide, by decide, by decide, by decide⟩
  intro cfg clk st uid n inv st1 hc h0 hle
  constructor
  · simp only [delete_user_account, hc]
    rw [if_neg (by omega), if_pos hle]
  · simp only [delete_user_account, hc]
    rw [if_neg (by omega), if_pos hle]
    simp [dget, List.lookup]

/-- Witness for C4 amended at concrete inputs. -/
theorem C4_direct_result_witness :
    count_and_list_objects stOne "u"
      = ((1, [("photos/u/", ["photos/u/a"])]),
         ⟨[("photos/u/a", "x")],
          [Op.listOp "photos/u/", Op.listOp "thumbnails/u/",
           Op.listOp "catalogs/u/", Op.listOp "users/u/"]⟩) ∧
    (0 < 1 ∧ 1 ≤ cfgExn.threshold) ∧
    dget (delete_user_account cfgExn clkA stOne "u").1 "failedKeys" = none :=
  ⟨by decide, ⟨by decide, by decide⟩,
   (C4_direct_result.1 cfgExn clkA stOne "u" 1 [("photos/u/", ["photos/u/a"])]
     ⟨[("photos/u/a", "x")],
      [Op.listOp "photos/u/", Op.listOp "thumbnails/u/",
       Op.listOp "catalogs/u/", Op.listOp "users/u/"]⟩
     (by decide) (by decide) (by decide)).2⟩

/-- C5 counterexample: with the first namespace listing two objects and the
second namespace's listing raising, `count_and_list_objects_f` returns the
bare error — the counts accumulated for the prior prefix are not returned;
the scan does not continue. -/
theorem C5_counterexample :
    listingBoom "photos/u/" = .ok ["photos/u/a", "photos/u/b"] ∧
    listingBoom "thumbnails/u/" = .error "boom" ∧
    exceptOk (count_and_list_objects_f listingBoom "u") = false ∧
    count_and_list_objects_f listingBoom "u" = .error "boom" :=
  ⟨rfl, rfl, rfl, rfl⟩

/-- C5 amended: a listing error for any prefix aborts the inventory scan:
the scan succeeds exactly when every namespace listing succeeds, and the
first listing error propagates out as the function's result, discarding the
counts accumulated for prior prefixes (they are surfaced only at the
top-level handler as an error response). -/
theorem C5_scan_error_aborts :
    ∀ (listing : String → Except String (List String)) (uid : String),
      (exceptOk (count_and_list_objects_f listing uid) = true ↔
        ∀ pre ∈ userPrefixes uid, exceptOk (listing pre) = true) ∧
      (∀ e, listing ("photos/" ++ uid ++ "/") = .error e →
        count_and_list_objects_f listing uid = .error e) ∧
      (∀ ks e, listing ("photos/" ++ uid ++ "/") = .ok ks →
        listing ("thumbnails/" ++ uid ++ "/") = .error e →
        count_and_list_objects_f listing uid = .error e) := by
  intro listing uid
  refine ⟨?_, ?_, ?_⟩
  · simp only [count_and_list_objects_f, userPrefixes, List.foldl_cons, List.foldl_nil]
    cases h1 : listing ("photos/" ++ uid ++ "/") <;>
      cases h2 : listing ("thumbnails/" ++ uid ++ "/") <;>
        cases h3 : listing ("catalogs/" ++ uid ++ "/") <;>
          cases h4 : listing ("users/" ++ uid ++ "/") <;>
            simp [scan_prefix_f, h1, h2, h3, h4, exceptOk, userPrefixes]
  · intro e h1
    simp [count_and_list_objects_f, userPrefixes, scan_prefix_f, h1]
  · intro ks e h1 h2
    simp [count_and_list_objects_f, userPrefixes, scan_prefix_f, h1, h2]

/-- Witness for C5 amended at concrete inputs. -/
theorem C5_scan_error_aborts_witness :
    listingBoom ("photos/" ++ "u" ++ "/") = .ok ["photos/u/a", "photos/u/b"] ∧
    listingBoom ("thumbnails/" ++ "u" ++ "/") = .error "boom" ∧
    count_and_list_objects_f listingBoom "u" = .error "boom" :=
  ⟨rfl, rfl,
   (C5_scan_error_aborts listingBoom "u").2.2 ["photos/u/a", "photos/u/b"] "boom" rfl rfl⟩

/-- C6: for a user with zero matching objects the outcome is the `Empty`
case (`completed`, `objectCount` 0, method `none`), the user's identity
mappings and scheduled-deletion entry are still removed, and every delete
call issued targets only the auxiliary namespaces — none touches any
per-user object namespace, and no multi-object delete is issued at all. -/
theorem C6_empty_outcome :
    ∀ (cfg : Config) (clk : Clock) (st : S3State) (uid : String),
      (∀ p ∈ st.objects, ∀ pre ∈ userPrefixes uid, hasPrefix pre p.1 = false) →
      (st.objects.map Prod.fst).Nodup →
      (∀ p ∈ st.objects, ∀ q ∈ st.objects,
        schedMatch uid p = true → schedMatch uid q = true → p = q) →
      (delete_user_account cfg clk st uid).1
        = [("status", .vStr "completed"), ("userId", .vStr uid),
           ("objectCount", .vNat 0), ("method", .vStr "none"),
           ("message", .vStr "No objects to delete")] ∧
      (∀ p ∈ (delete_user_account cfg clk st uid).2.objects, identDoomed uid p = false) ∧
      (∀ p ∈ (delete_user_account cfg clk st uid).2.objects, schedMatch uid p = false) ∧
      (∀ k, Op.deleteObjectOp k ∈ (delete_user_account cfg clk st uid).2.trace →
        Op.deleteObjectOp k ∉ st.trace →
        ∀ pre ∈ userPrefixes uid, hasPrefix pre k = false) ∧
      (∀ ks, Op.deleteObjectsOp ks ∈ (delete_user_account cfg clk st uid).2.trace →
        Op.deleteObjectsOp ks ∈ st.trace) := by
  intro cfg clk st uid hobj hnd huniq
  have hc0 : (count_and_list_objects st uid).1 = (0, []) := count_empty st uid hobj
  have hO1 : (count_and_list_objects st uid).2.objects = st.objects := (count_state st uid).1
  have hT1 : (count_and_list_objects st uid).2.trace
      = st.trace ++ [Op.listOp ("photos/" ++ uid ++ "/"),
          Op.listOp ("thumbnails/" ++ uid ++ "/"),
          Op.listOp ("catalogs/" ++ uid ++ "/"),
          Op.listOp ("users/" ++ uid ++ "/")] := (count_state st uid).2
  have hnd1 : ((count_and_list_objects st uid).2.objects.map Prod.fst).Nodup := by
    rw [hO1]; exact hnd
  have hbranch : delete_user_account cfg clk st uid
      = ([("status", .vStr "completed"), ("userId", .vStr uid),
          ("objectCount", .vNat 0), ("method", .vStr "none"),
          ("message", .vStr "No objects to delete")],
         remove_scheduled_deletion
           (remove_identity_mappings (count_and_list_objects st uid).2 uid) uid) := by
    simp [delete_user_account, hc0]
  set Y := remove_identity_mappings (count_and_list_objects st uid).2 uid with hY
  have hYmem : ∀ p ∈ Y.objects, p ∈ st.objects := by
    intro p hp
    rw [hY, remove_identity_mappings_objects _ uid hnd1] at hp
    rw [← hO1]
    exact (List.mem_filter.mp hp).1
  have huniqY : ∀ p ∈ Y.objects, ∀ q ∈ Y.objects,
      schedMatch uid p = true → schedMatch uid q = true → p = q := by
    intro p hp q hq
    exact huniq p (hYmem p hp) q (hYmem q hq)
  rw [hbranch]
  refine ⟨rfl, ?_, ?_, ?_, ?_⟩
  · intro p hp
    exact remove_identity_no_doomed _ uid hnd1 p (remove_scheduled_objects_subset Y uid p hp)
  · intro p hp
    exact remove_scheduled_no_match Y uid huniqY p hp
  · intro k hk hknot pre hpre
    rcases remove_scheduled_trace Y uid (Op.deleteObjectOp k) hk with h | h | ⟨k2, hk2pre, hk2⟩
    · rcases remove_identity_mappings_trace (count_and_list_objects st uid).2 uid
          (Op.deleteObjectOp k) h with h2 | h2 | ⟨k3, hk3pre, hk3⟩
      · rw [hT1] at h2
        rcases List.mem_append.mp h2 with h3 | h3
        · exact absurd h3 hknot
        · simp at h3
      · simp at h2
      · rcases hk3 with h3 | h3
        · simp at h3
        · have hkk : k = k3 := by simpa using h3
          rw [hkk]
          exact aux_key_not_user_prefix hpre (Or.inl hk3pre)
    · simp at h
    · have hkk : k = k2 := by simpa using hk2
      rw [hkk]
      exact aux_key_not_user_prefix hpre (Or.inr hk2pre)
  · intro ks hk
    rcases remove_scheduled_trace Y uid (Op.deleteObjectsOp ks) hk with h | h | ⟨k2, _, hk2⟩
    · rcases remove_identity_mappings_trace (count_and_list_objects st uid).2 uid
          (Op.deleteObjectsOp ks) h with h2 | h2 | ⟨k3, _, hk3⟩
      · rw [hT1] at h2
        rcases List.mem_append.mp h2 with h3 | h3
        · exact h3
        · simp at h3
      · simp at h2
      · rcases hk3 with h3 | h3 <;> simp at h3
    · simp at h
    · simp at hk2

/-- Witness for C6 at concrete inputs: `u1` has no objects but one identity
mapping and one scheduled entry. -/
theorem C6_empty_outcome_witness :
    (∀ p ∈ stAux.objects, ∀ pre ∈ userPrefixes "u1", hasPrefix pre p.1 = false) ∧
    (stAux.objects.map Prod.fst).Nodup ∧
    (∀ p ∈ stAux.objects, ∀ q ∈ stAux.objects,
      schedMatch "u1" p = true → schedMatch "u1" q = true → p = q) ∧
    (delete_user_account cfgA clkA stAux "u1").1
      = [("status", .vStr "completed"), ("userId", .vStr "u1"),
         ("objectCount", .vNat 0), ("method", .vStr "none"),
         ("message", .vStr "No objects to delete")] :=
  ⟨by decide, by decide, by decide,
   (C6_empty_outcome cfgA clkA stAux "u1" (by decide) (by decide) (by decide)).1⟩

/-- C7: a scheduled entry whose body parses to `deleteOn = t` is driven
through the full single-user deletion workflow exactly when `t <= now`,
and is otherwise skipped with the store's objects untouched (reads change
no objects); the sweep's `processed` count always equals the number of
recorded outcomes; in the two-entry scenario (`u1` due, `u2` future) the
sweep processes only `u1`, returns `processed = 1`, and `u2`'s entry
remains stored while `u1`'s entry is gone. -/
theorem C7_sweep_due_entries :
    (∀ (cfg : Config) (clk : Clock) (results : List Dict) (st : S3State)
       (k body : String) (t : Int),
      (s3_get st k).1 = some body →
      cfg.parseDeleteOn body = .ok t →
      sweep_step cfg clk (results, st) k
        = (if t ≤ clk.time
           then (results ++ [merge_user (replaceStr (lastComponent k) ".json")
                  (delete_user_account cfg clk (s3_get st k).2
                    (replaceStr (lastComponent k) ".json")).1],
                 (delete_user_account cfg clk (s3_get st k).2
                   (replaceStr (lastComponent k) ".json")).2)
           else (results, (s3_get st k).2))) ∧
    (∀ (st : S3State) (k : String), ((s3_get st k).2).objects = st.objects) ∧
    (∀ (cfg : Config) (clk : Clock) (st : S3State),
      (process_scheduled_deletions cfg clk st).1.processed
        = (process_scheduled_deletions cfg clk st).1.results.length) ∧
    (process_scheduled_deletions cfgA clkA stSweep).1.processed = 1 ∧
    (process_scheduled_deletions cfgA clkA stSweep).1.results.length = 1 ∧
    dget (List.getD (process_scheduled_deletions cfgA clkA stSweep).1.results 0 []) "userId"
      = some (.vStr "u1") ∧
    dget (List.getD (process_scheduled_deletions cfgA clkA stSweep).1.results 0 []) "status"
      = some (.vStr "completed") ∧
    ("scheduled-deletions/2025-10-12/u2.json", "t160")
      ∈ (process_scheduled_deletions cfgA clkA stSweep).2.objects ∧
    ("scheduled-deletions/2025-10-12/u1.json", "t40")
      ∉ (process_scheduled_deletions cfgA clkA stSweep).2.objects := by
  refine ⟨?_, ?_, ?_, by decide, by decide, by decide, by decide, by decide, by decide⟩
  · intro cfg clk results st k body t hget hparse
    simp only [sweep_step, hget, hparse]
  · intro st k
    rfl
  · intro cfg clk st
    simp only [process_scheduled_deletions]
    split
    · rfl
    · rfl

/-- Witness for C7's step characterization at the due entry `u1`. -/
theorem C7_sweep_due_entries_witness :
    (s3_get stSweep "scheduled-deletions/2025-10-12/u1.json").1 = some "t40" ∧
    cfgA.parseDeleteOn "t40" = .ok 40 ∧
    sweep_step cfgA clkA ([], stSweep) "scheduled-deletions/2025-10-12/u1.json"
      = (if (40 : Int) ≤ clkA.time
         then ([] ++ [merge_user
                (replaceStr (lastComponent "scheduled-deletions/2025-10-12/u1.json") ".json")
                (delete_user_account cfgA clkA
                  (s3_get stSweep "scheduled-deletions/2025-10-12/u1.json").2
                  (replaceStr (lastComponent "scheduled-deletions/2025-10-12/u1.json") ".json")).1],
               (delete_user_account cfgA clkA
                 (s3_get stSweep "scheduled-deletions/2025-10-12/u1.json").2
                 (replaceStr (lastComponent "scheduled-deletions/2025-10-12/u1.json") ".json")).2)
         else ([], (s3_get stSweep "scheduled-deletions/2025-10-12/u1.json").2)) :=
  ⟨by decide, rfl,
   C7_sweep_due_entries.1 cfgA clkA [] stSweep
     "scheduled-deletions/2025-10-12/u1.json" "t40" 40 (by decide) rfl⟩

lemma remove_scheduled_objects_congr (st st2 : S3State) (uid : String)
    (h : st.objects = st2.objects) :
    (remove_scheduled_deletion st uid).objects
      = (remove_scheduled_deletion st2 uid).objects := by
  rw [remove_scheduled_objects_eq, remove_scheduled_objects_eq]
  simp only [s3_list, h]

/-- If no stored object matches the user id, `remove_scheduled_deletion`
deletes nothing. -/
lemma remove_scheduled_noop (st : S3State) (uid : String)
    (hclean : ∀ p ∈ st.objects, schedMatch uid p = false) :
    (remove_scheduled_deletion st uid).objects = st.objects := by
  rw [remove_scheduled_objects_eq]
  cases hf : ((s3_list st "scheduled-deletions/").1).find? (fun key => strContains key uid) with
  | none => rfl
  | some k =>
    exfalso
    obtain ⟨hkcon, c, hkmem, hkpre⟩ := sched_entry_pair st uid k hf
    have h := hclean (k, c) hkmem
    rw [schedMatch] at h
    simp [hkpre, hkcon] at h

/-- C8 counterexample: with two scheduled entries whose keys contain `u1`,
the first cleanup run deletes only the first entry and a second run deletes
a further record — scheduled-entry removal is not idempotent as claimed. -/
theorem C8_counterexample :
    stSched2.objects.length = 2 ∧
    (remove_scheduled_deletion stSched2 "u1").objects
      = [("scheduled-deletions/2025-01-02/u1.json", "b")] ∧
    (remove_scheduled_deletion (remove_scheduled_deletion stSched2 "u1") "u1").objects
      = [] :=
  ⟨by decide, by decide, by decide⟩

/-- C8 amended: identity-mapping removal is idempotent outright; scheduled-
entry removal (and hence the composed auxiliary cleanup) is idempotent
provided at most one stored key contains the user id, and each sub-operation
deletes nothing when the target records are already absent. -/
theorem C8_cleanup_idempotent :
    ∀ (st : S3State) (uid : String),
      (st.objects.map Prod.fst).Nodup →
      ((remove_identity_mappings (remove_identity_mappings st uid) uid).objects
        = (remove_identity_mappings st uid).objects) ∧
      ((∀ p ∈ st.objects, identDoomed uid p = false) →
        (remove_identity_mappings st uid).objects = st.objects) ∧
      ((∀ p ∈ st.objects, schedMatch uid p = false) →
        (remove_scheduled_deletion st uid).objects = st.objects) ∧
      ((∀ p ∈ st.objects, ∀ q ∈ st.objects,
          schedMatch uid p = true → schedMatch uid q = true → p = q) →
        (remove_scheduled_deletion (remove_scheduled_deletion st uid) uid).objects
          = (remove_scheduled_deletion st uid).objects) ∧
      ((∀ p ∈ st.objects, ∀ q ∈ st.objects,
          schedMatch uid p = true → schedMatch uid q = true → p = q) →
        (remove_scheduled_deletion (remove_identity_mappings
            (remove_scheduled_deletion (remove_identity_mappings st uid) uid) uid) uid).objects
          = (remove_scheduled_deletion (remove_identity_mappings st uid) uid).objects) := by
  intro st uid hnd
  have hndY : ((remove_identity_mappings st uid).objects.map Prod.fst).Nodup := by
    rw [remove_identity_mappings_objects st uid hnd]
    exact nodup_keys_filter _ _ hnd
  have hYsub : ∀ p ∈ (remove_identity_mappings st uid).objects, p ∈ st.objects := by
    intro p hp
    rw [remove_identity_mappings_objects st uid hnd] at hp
    exact (List.mem_filter.mp hp).1
  refine ⟨remove_identity_mappings_idem st uid hnd, remove_identity_noop st uid hnd,
    remove_scheduled_noop st uid, remove_scheduled_idem st uid, ?_⟩
  intro huniq
  have huniqY : ∀ p ∈ (remove_identity_mappings st uid).objects,
      ∀ q ∈ (remove_identity_mappings st uid).objects,
      schedMatch uid p = true → schedMatch uid q = true → p = q := by
    intro p hp q hq
    exact huniq p (hYsub p hp) q (hYsub q hq)
  have hndZ : (((remove_scheduled_deletion (remove_identity_mappings st uid) uid).objects).map
      Prod.fst).Nodup := by
    rw [remove_scheduled_objects_eq]
    cases hf : ((s3_list (remove_identity_mappings st uid) "scheduled-deletions/").1).find?
        (fun key => strContains key uid) with
    | none => exact hndY
    | some k => exact nodup_keys_filter _ _ hndY
  have hcleanZ : ∀ p ∈ (remove_scheduled_deletion (remove_identity_mappings st uid) uid).objects,
      identDoomed uid p = false := by
    intro p hp
    exact remove_identity_no_doomed st uid hnd p
      (remove_scheduled_objects_subset (remove_identity_mappings st uid) uid p hp)
  have h1 : (remove_identity_mappings
      (remove_scheduled_deletion (remove_identity_mappings st uid) uid) uid).objects
      = (remove_scheduled_deletion (remove_identity_mappings st uid) uid).objects :=
    remove_identity_noop _ uid hndZ hcleanZ
  have h2 := remove_scheduled_objects_congr
    (remove_identity_mappings (remove_scheduled_deletion (remove_identity_mappings st uid) uid) uid)
    (remove_scheduled_deletion (remove_identity_mappings st uid) uid) uid h1
  rw [h2]
  exact remove_scheduled_idem (remove_identity_mappings st uid) uid huniqY

/-- Witness for C8 amended at concrete inputs: one identity mapping and one
scheduled entry for `u1`. -/
theorem C8_cleanup_idempotent_witness :
    (stAux.objects.map Prod.fst).Nodup ∧
    (∀ p ∈ stAux.objects, ∀ q ∈ stAux.objects,
      schedMatch "u1" p = true → schedMatch "u1" q = true → p = q) ∧
    (remove_identity_mappings (remove_identity_mappings stAux "u1") "u1").objects
      = (remove_identity_mappings stAux "u1").objects ∧
    (remove_scheduled_deletion (remove_scheduled_deletion stAux "u1") "u1").objects
      = (remove_scheduled_deletion stAux "u1").objects :=
  ⟨by decide, by decide,
   (C8_cleanup_idempotent stAux "u1" (by decide)).1,
   (C8_cleanup_idempotent stAux "u1" (by decide)).2.2.2.1 (by decide)⟩

/-- C9: the job-status tracker never throws past its boundary: for every
provider behaviour it returns a result carrying the queried job id; an
unknown job id yields status `NotFound` (with message `Job not found`), any
other query failure yields status `Error` carrying the underlying message,
and a successful lookup passes the provider's status through. -/
theorem C9_job_status_normalized :
    ∀ (cfg : Config) (jobId : String),
      (get_batch_job_status cfg jobId).jobId = jobId ∧
      (cfg.describeJob jobId = .noSuchJob →
        (get_batch_job_status cfg jobId).status = "NotFound" ∧
        (get_batch_job_status cfg jobId).error = some "Job not found") ∧
      (∀ e, cfg.describeJob jobId = .failure e →
        (get_batch_job_status cfg jobId).status = "Error" ∧
        (get_batch_job_status cfg jobId).error = some e) ∧
      (∀ s ct pr pg, cfg.describeJob jobId = .ok s ct pr pg →
        (get_batch_job_status cfg jobId).status = s) := by
  intro cfg jobId
  refine ⟨?_, ?_, ?_, ?_⟩
  · cases hd : cfg.describeJob jobId <;> simp [get_batch_job_status, hd]
  · intro h
    simp [get_batch_job_status, h]
  · intro e h
    simp [get_batch_job_status, h]
  · intro s ct pr pg h
    simp [get_batch_job_status, h]

/-- Witness for C9 at concrete inputs. -/
theorem C9_job_status_normalized_witness :
    cfgA.describeJob "j1" = .noSuchJob ∧
    (get_batch_job_status cfgA "j1").status = "NotFound" ∧
    cfgFail.describeJob "j1" = .failure "denied" ∧
    (get_batch_job_status cfgFail "j1").status = "Error" ∧
    (get_batch_job_status cfgFail "j1").error = some "denied" :=
  ⟨by decide,
   ((C9_job_status_normalized cfgA "j1").2.1 (by decide)).1,
   by decide,
   ((C9_job_status_normalized cfgFail "j1").2.2.1 "denied" (by decide)).1,
   ((C9_job_status_normalized cfgFail "j1").2.2.1 "denied" (by decide)).2⟩

/-- C10: an `immediate` event in any environment other than `development`
is rejected with a 403 client-error result and the store is returned
untouched — no listing, read, delete, or cleanup call is issued for any
user; the single-user workflow is reachable via `immediate` only in the
development environment. -/
theorem C10_immediate_dev_only :
    ∀ (cfg : Config) (clk : Clock) (ev : Event) (st : S3State),
      cfg.environment ≠ "development" →
      ev.type = some "immediate" →
      handler cfg clk ev st
        = (⟨403, .err "Immediate deletion only allowed in development"⟩, st) := by
  intro cfg clk ev st henv htype
  simp [handler, htype, henv]

/-- Witness for C10 at concrete inputs: production environment. -/
theorem C10_immediate_dev_only_witness :
    cfgProd.environment ≠ "development" ∧
    handler cfgProd clkA { type := some "immediate", userId := some "u" } stOne
      = (⟨403, .err "Immediate deletion only allowed in development"⟩, stOne) :=
  ⟨by decide,
   C10_immediate_dev_only cfgProd clkA { type := some "immediate", userId := some "u" }
     stOne (by decide) rfl⟩

end Photolala
